import Mathlib

/-!
Verification development for the ICS-CTF training application.

The definitions below are a shallow embedding of the core logic of the
repository:

* `src/progress.py` (`ProgressManager`): key construction, attempt
  recording, completion and hint flags, per-question and rollup
  statistics, and `reset`.
* `src/I-CTF-Code/paths.py` (`PathManager`): topic ordering
  (`get_topics`), question-content parsing (`load_question_content` /
  `_extract_content`), and the answer/hint identifier computation
  (`get_correct_answer` / `get_hint_content`).
* `src/I-CTF-Code/app.py` (`CTFApplication.check_answer`): the
  multi-answer matching logic and the record-then-mark-completed flow.

Python strings are modelled as Lean `String` / `List Char`; Python dicts
(whose insertion order the code relies on only for iteration) are
modelled as association lists with first-match lookup and in-place
update.  File persistence (`_save_stats` / `_save_progress`) has no
observable effect on the queries studied here and is omitted; the
`try/except` wrappers in `progress.py` cannot fire on the in-memory
operations modelled (no I/O), so the success paths are modelled directly.
-/

namespace ICTF

/-! ### Python string primitives -/

/-- Whitespace test used by Python's `str.strip()` and the regex class
`\s` (ASCII range: space, tab, newline, carriage return, vertical tab,
form feed). -/
def isPySpace (c : Char) : Bool :=
  c == ' ' || c == '\t' || c == '\n' || c == '\r' || c == '\x0b' || c == '\x0c'

/-- Python `str.strip()` on a character list: drop whitespace from both
ends. -/
def pyStripList (l : List Char) : List Char :=
  ((l.dropWhile isPySpace).reverse.dropWhile isPySpace).reverse

/-- Python `str.strip()`. -/
def pyStrip (s : String) : String :=
  String.mk (pyStripList s.data)

/-- Python `str.lower()` restricted to ASCII letters (the only case the
application's answer files exercise). -/
def pyLowerChar (c : Char) : Char :=
  if 'A' ≤ c ∧ c ≤ 'Z' then Char.ofNat (c.toNat + 32) else c

/-- Python `str.lower()`. -/
def pyLower (s : String) : String :=
  String.mk (s.data.map pyLowerChar)

/-- Python `str.split(sep)` for a one-character separator, on character
lists: splits at every occurrence, keeping empty pieces, and yields
`[[]]` on the empty string. -/
def pySplitChar (sep : Char) : List Char → List (List Char)
  | [] => [[]]
  | c :: rest =>
    let r := pySplitChar sep rest
    if c = sep then [] :: r
    else
      match r with
      | [] => [[c]]
      | h :: t => (c :: h) :: t

/-- Python `str.split(sep)` for a one-character separator. -/
def pySplit (s : String) (sep : Char) : List String :=
  (pySplitChar sep s.data).map String.mk

/-! ### Progress store (`src/progress.py`) -/

/-- Per-question attempt record (`stats["attempts"][key]`). -/
structure QStats where
  total : Nat
  correct : Nat
deriving DecidableEq, Repr

/-- Python `dict.get`: first-match lookup in an association list. -/
def dictGet {α : Type} (k : String) : List (String × α) → Option α
  | [] => none
  | (k', v) :: rest => if k' = k then some v else dictGet k rest

/-- Python `dict[k] = v`: update the existing entry in place, else append
at the end (dicts preserve insertion order). -/
def dictSet {α : Type} (k : String) (v : α) : List (String × α) → List (String × α)
  | [] => [(k, v)]
  | (k', v') :: rest => if k' = k then (k, v) :: rest else (k', v') :: dictSet k v rest

/-- The whole in-memory state of `ProgressManager`: `stats["attempts"]`,
`stats["totals"]`, `progress["completed"]`, `progress["hints_used"]`. -/
structure Store where
  attempts : List (String × QStats)
  totalAttempts : Nat
  correctAttempts : Nat
  completed : List (String × Bool)
  hintsUsed : List (String × Bool)
deriving DecidableEq, Repr

/-- The state after construction with no saved files (all maps empty,
totals zero). -/
def emptyStore : Store :=
  { attempts := [], totalAttempts := 0, correctAttempts := 0,
    completed := [], hintsUsed := [] }

/-- `ProgressManager._create_question_key`.  The difficulty is a Python
`str` or `None`; the code tests it for truthiness (`if difficulty:`), so
`None` and the empty string both fall to the literal `"None"` segment. -/
def createQuestionKey (module : String) (difficulty : Option String)
    (topic question : String) : String :=
  match difficulty with
  | some d =>
    if d ≠ "" then module ++ "/" ++ d ++ "/" ++ topic ++ "/" ++ question
    else module ++ "/" ++ "None" ++ "/" ++ topic ++ "/" ++ question
  | none => module ++ "/" ++ "None" ++ "/" ++ topic ++ "/" ++ question

/-- The difficulty segment of a composite key (`difficulty` if truthy,
else the literal `"None"`). -/
def difficultySeg : Option String → String
  | some d => if d ≠ "" then d else "None"
  | none => "None"

/-- `ProgressManager.record_attempt`: guard against falsy
module/topic/question, then increment the per-key record and the global
totals; returns the `bool` result together with the new state. -/
def recordAttempt (module : String) (difficulty : Option String)
    (topic question : String) (isCorrect : Bool) (s : Store) : Bool × Store :=
  if module = "" ∨ topic = "" ∨ question = "" then (false, s)
  else
    let key := createQuestionKey module difficulty topic question
    let cur := (dictGet key s.attempts).getD ⟨0, 0⟩
    let upd : QStats := ⟨cur.total + 1, cur.correct + (if isCorrect then 1 else 0)⟩
    (true,
      { s with
        attempts := dictSet key upd s.attempts,
        totalAttempts := s.totalAttempts + 1,
        correctAttempts := s.correctAttempts + (if isCorrect then 1 else 0) })

/-- `ProgressManager.mark_question_completed`. -/
def markQuestionCompleted (module : String) (difficulty : Option String)
    (topic question : String) (s : Store) : Bool × Store :=
  if module = "" ∨ topic = "" ∨ question = "" then (false, s)
  else
    let key := createQuestionKey module difficulty topic question
    (true, { s with completed := dictSet key true s.completed })

/-- `ProgressManager.is_question_completed`. -/
def isQuestionCompleted (module : String) (difficulty : Option String)
    (topic question : String) (s : Store) : Bool :=
  if module = "" ∨ topic = "" ∨ question = "" then false
  else (dictGet (createQuestionKey module difficulty topic question) s.completed).getD false

/-- `ProgressManager.mark_hint_used`. -/
def markHintUsed (module : String) (difficulty : Option String)
    (topic question : String) (s : Store) : Bool × Store :=
  if module = "" ∨ topic = "" ∨ question = "" then (false, s)
  else
    let key := createQuestionKey module difficulty topic question
    (true, { s with hintsUsed := dictSet key true s.hintsUsed })

/-- `ProgressManager.is_hint_used`. -/
def isHintUsed (module : String) (difficulty : Option String)
    (topic question : String) (s : Store) : Bool :=
  if module = "" ∨ topic = "" ∨ question = "" then false
  else (dictGet (createQuestionKey module difficulty topic question) s.hintsUsed).getD false

/-- Result record of `get_question_stats`. -/
structure QueryStats where
  total : Nat
  correct : Nat
  accuracy : ℚ
deriving Repr

/-- `ProgressManager.get_question_stats`: zeros when no record exists,
else the record with `accuracy = correct / total` (0 when `total = 0`). -/
def getQuestionStats (module : String) (difficulty : Option String)
    (topic question : String) (s : Store) : QueryStats :=
  match dictGet (createQuestionKey module difficulty topic question) s.attempts with
  | none => ⟨0, 0, 0⟩
  | some st =>
    ⟨st.total, st.correct, if st.total > 0 then (st.correct : ℚ) / st.total else 0⟩

/-- Result record of the rollup queries (`get_topic_stats`,
`get_overall_stats`, ...). -/
structure RollupStats where
  totalAttempts : Nat
  correctAttempts : Nat
  accuracy : ℚ
deriving Repr

/-- `ProgressManager.get_topic_stats`: the scan prefix is
`_create_question_key(module, difficulty, topic, "")[:-1]` — the key for
the empty question with its final character (the trailing slash)
dropped — and every recorded key starting with that prefix is summed. -/
def getTopicStats (module : String) (difficulty : Option String)
    (topic : String) (s : Store) : RollupStats :=
  let pre : List Char := (createQuestionKey module difficulty topic "").data.dropLast
  let acc := s.attempts.foldl
    (fun acc kv => if pre.isPrefixOf kv.1.data then
        (acc.1 + kv.2.total, acc.2 + kv.2.correct) else acc)
    (0, 0)
  ⟨acc.1, acc.2, if acc.1 > 0 then (acc.2 : ℚ) / acc.1 else 0⟩

/-- `ProgressManager.get_overall_stats`: the stored global totals. -/
def getOverallStats (s : Store) : RollupStats :=
  ⟨s.totalAttempts, s.correctAttempts,
    if s.totalAttempts > 0 then (s.correctAttempts : ℚ) / s.totalAttempts else 0⟩

/-- `ProgressManager.reset`: both stores are replaced by empty
structures and `True` is returned. -/
def resetOp (_ : Store) : Bool × Store :=
  (true, emptyStore)

/-- One call into the progress store, as enumerated by the spec's
invariants (record an attempt, mark completion, mark hint usage, or
reset). -/
inductive Op where
  | record (module : String) (difficulty : Option String)
      (topic question : String) (isCorrect : Bool)
  | markCompleted (module : String) (difficulty : Option String)
      (topic question : String)
  | markHint (module : String) (difficulty : Option String)
      (topic question : String)
  | reset

/-- State transition of one progress-store call. -/
def applyOp (s : Store) : Op → Store
  | .record m d t q c => (recordAttempt m d t q c s).2
  | .markCompleted m d t q => (markQuestionCompleted m d t q s).2
  | .markHint m d t q => (markHintUsed m d t q s).2
  | .reset => (resetOp s).2

/-- The state reached from the empty store by a sequence of
progress-store calls. -/
def runOps (ops : List Op) : Store :=
  ops.foldl applyOp emptyStore

/-- Sum of the per-key `total` fields over all recorded attempts. -/
def statsSumTotal (l : List (String × QStats)) : Nat :=
  (l.map (fun kv => kv.2.total)).sum

/-- Sum of the per-key `correct` fields over all recorded attempts. -/
def statsSumCorrect (l : List (String × QStats)) : Nat :=
  (l.map (fun kv => kv.2.correct)).sum

/-! ### Answer checking (`src/I-CTF-Code/app.py`, `check_answer`) -/

/-- The list of accepted alternatives built by `check_answer`:
`[option.lower().strip() for option in correct_answer.split('|')]`. -/
def answerOptions (correctAnswer : String) : List String :=
  (pySplit correctAnswer '|').map (fun o => pyStrip (pyLower o))

/-- The `is_correct` test of `check_answer`:
`user_answer.lower().strip() in correct_options`. -/
def checkAnswerCorrect (correctAnswer userAnswer : String) : Bool :=
  (answerOptions correctAnswer).contains (pyStrip (pyLower userAnswer))

/-- The progress-store effect of `check_answer` after judging: always
`record_attempt(..., is_correct)`, and `mark_question_completed(...)`
only when the attempt was correct. -/
def checkAnswerProgress (module : String) (difficulty : Option String)
    (topic question : String) (isCorrect : Bool) (s : Store) : Store :=
  let s1 := (recordAttempt module difficulty topic question isCorrect s).2
  if isCorrect then (markQuestionCompleted module difficulty topic question s1).2 else s1

/-- Progress-store calls as the application actually issues them:
completion is only ever set inside the `check_answer` flow (`submit`),
never by a bare `mark_question_completed`. -/
inductive AppOp where
  | record (module : String) (difficulty : Option String)
      (topic question : String) (isCorrect : Bool)
  | submit (module : String) (difficulty : Option String)
      (topic question : String) (isCorrect : Bool)
  | markHint (module : String) (difficulty : Option String)
      (topic question : String)
  | reset

/-- State transition of one application-level call. -/
def applyAppOp (s : Store) : AppOp → Store
  | .record m d t q c => (recordAttempt m d t q c s).2
  | .submit m d t q c => checkAnswerProgress m d t q c s
  | .markHint m d t q => (markHintUsed m d t q s).2
  | .reset => (resetOp s).2

/-- The state reached from the empty store by a sequence of
application-level calls. -/
def runAppOps (ops : List AppOp) : Store :=
  ops.foldl applyAppOp emptyStore

/-! ### Topic ordering (`src/I-CTF-Code/paths.py`, `get_topics`) -/

/-- Parse a nonempty run of ASCII digits, as Python `int` does. -/
def digitsToNat (ds : List Char) : Nat :=
  ds.foldl (fun a c => a * 10 + (c.toNat - 48)) 0

/-- Match the regex `Topic\s*(\d+)` anchored at the head of the list:
the literal `Topic`, then any run of whitespace, then at least one
digit; yields the parsed number. -/
def matchTopicNumAt (l : List Char) : Option Nat :=
  match l with
  | 'T' :: 'o' :: 'p' :: 'i' :: 'c' :: rest =>
    let ds := (rest.dropWhile isPySpace).takeWhile Char.isDigit
    if ds.isEmpty then none else some (digitsToNat ds)
  | _ => none

/-- `re.search(r'Topic\s*(\d+)', dir_name)`: the leftmost position at
which the pattern matches, with its captured number. -/
def searchTopicNum : List Char → Option Nat
  | [] => none
  | c :: rest =>
    match matchTopicNumAt (c :: rest) with
    | some n => some n
    | none => searchTopicNum rest

/-- The `sort_key` of `get_topics`: the number captured by
`Topic\s*(\d+)`, or 999 for names the pattern does not match. -/
def topicSortKey (dirName : String) : Nat :=
  (searchTopicNum dirName.data).getD 999

/-- Stable insertion of a `(dir_name, display_name)` pair into an
already-sorted list: skip entries with strictly smaller key so that the
inserted (originally earlier) entry precedes entries of equal key. -/
def insertTopic (a : String × String) : List (String × String) → List (String × String)
  | [] => [a]
  | b :: l =>
    if topicSortKey b.1 < topicSortKey a.1 then b :: insertTopic a l
    else a :: b :: l

/-- `topics.sort(key=sort_key)`: Python's sort is stable, so its output
on any input equals this stable insertion sort by the same key.  (The
`except` fallback to lexicographic sort in the source is dead code: the
key function cannot raise.) -/
def sortTopics (topics : List (String × String)) : List (String × String) :=
  topics.foldr insertTopic []

/-! ### Question-content parsing (`src/I-CTF-Code/paths.py`) -/

/-- Index of the first occurrence of a character, Python `str.find`
(with `none` for Python's `-1`). -/
def findCharIdx (c : Char) : List Char → Option Nat
  | [] => none
  | x :: rest => if x = c then some 0 else (findCharIdx c rest).map (· + 1)

/-- Python `str.find(c, start)`: first occurrence at index ≥ `start`. -/
def findCharFrom (c : Char) (l : List Char) (start : Nat) : Option Nat :=
  (findCharIdx c (l.drop start)).map (· + start)

/-- `PathManager._extract_content`: find the first `start_char`, find
`end_char` after it, and return the stripped slice strictly between the
two, else the empty string. -/
def extractContent (text : String) (startChar endChar : Char) : String :=
  if text = "" then ""
  else
    let l := text.data
    let sIdx := findCharIdx startChar l
    let eIdx := findCharFrom endChar l (match sIdx with | some i => i + 1 | none => 0)
    match sIdx, eIdx with
    | some i, some j =>
      if i < j then String.mk (pyStripList ((l.drop (i + 1)).take (j - (i + 1)))) else ""
    | some _, none => ""
    | none, _ => ""

/-- The parsing step of `PathManager.load_question_content` applied to
the file's content: extract the bracketed description and the braced
literal question; if both extractions are empty, both outputs are the
raw content, else the display text is the nonempty parts joined with a
blank line and the second output is the extracted question. -/
def loadQuestionContentPure (content : String) : String × String :=
  let description := extractContent content '[' ']'
  let actualQuestion := extractContent content '\x7b' '\x7d'
  if description = "" ∧ actualQuestion = "" then (content, content)
  else
    let f1 := if description ≠ "" then description ++ "\n\n" else ""
    let f2 := if actualQuestion ≠ "" then actualQuestion else ""
    (f1 ++ f2, actualQuestion)

/-! ### Answer/hint identifier (`src/I-CTF-Code/paths.py`,
`get_correct_answer` and `get_hint_content`) -/

/-- `question_file.replace("PS_", "")`: removes every non-overlapping
occurrence of `PS_`, scanning left to right (not only a leading one). -/
def stripPS : List Char → List Char
  | 'P' :: 'S' :: '_' :: rest => stripPS rest
  | c :: rest => c :: stripPS rest
  | [] => []

/-- The identifier used to locate answer and hint files:
`base_name.split('_')[0] if '_' in base_name else base_name[0]` applied
to the `PS_`-stripped filename; `none` models the `IndexError` Python
raises when the stripped name is empty. -/
def questionIdentifier (questionFile : String) : Option String :=
  let baseName := stripPS questionFile.data
  if baseName.contains '_' then
    some (String.mk ((pySplitChar '_' baseName).headD []))
  else
    match baseName with
    | c :: _ => some (String.mk [c])
    | [] => none

/-- The identifier as claim C8 words it: only a leading `PS_` is
stripped before taking the token in front of the first underscore (or
the first character).  Modelled from the claim for comparison with the
source's `questionIdentifier`. -/
def claimIdentifierSpec (questionFile : String) : Option String :=
  let baseName :=
    match questionFile.data with
    | 'P' :: 'S' :: '_' :: rest => rest
    | l => l
  if baseName.contains '_' then
    some (String.mk (baseName.takeWhile (fun c => ¬ (c = '_'))))
  else
    match baseName with
    | c :: _ => some (String.mk [c])
    | [] => none

/-- The identifier as the amended claim words it: remove every
occurrence of `PS_`, then take the token before the first underscore,
or the first character when no underscore remains.  Modelled from the
amended claim's words for comparison with the source's
`questionIdentifier`. -/
def amendedIdentifierSpec (questionFile : String) : Option String :=
  let baseName := stripPS questionFile.data
  if baseName.contains '_' then
    some (String.mk (baseName.takeWhile (fun c => ¬ (c = '_'))))
  else
    match baseName with
    | c :: _ => some (String.mk [c])
    | [] => none

/-! ## Helper lemmas -/

/-- Character-list form of a composite key, nested to the right. -/
theorem createQuestionKey_data (module : String) (difficulty : Option String)
    (topic question : String) :
    (createQuestionKey module difficulty topic question).data =
      module.data ++ '/' :: ((difficultySeg difficulty).data ++
        '/' :: (topic.data ++ '/' :: question.data)) := by
  have hslash : ("/" : String).data = ['/'] := rfl
  cases difficulty with
  | none => simp [createQuestionKey, difficultySeg, String.data_append, hslash]
  | some d =>
    by_cases h : d = "" <;>
      simp [createQuestionKey, difficultySeg, String.data_append, hslash, h]

theorem dictGet_dictSet_self {α : Type} (k : String) (v : α)
    (l : List (String × α)) : dictGet k (dictSet k v l) = some v := by
  induction l with
  | nil => simp [dictGet, dictSet]
  | cons hd tl ih =>
    by_cases h : hd.1 = k
    · simp [dictGet, dictSet, h]
    · simp [dictGet, dictSet, h, ih]

theorem dictGet_dictSet_ne {α : Type} (k k' : String) (v : α)
    (l : List (String × α)) (h : k' ≠ k) :
    dictGet k (dictSet k' v l) = dictGet k l := by
  induction l with
  | nil => simp [dictGet, dictSet, h]
  | cons hd tl ih =>
    by_cases h2 : hd.1 = k'
    · simp [dictGet, dictSet, h2, h]
    · simp only [dictSet, h2, if_false]
      by_cases h3 : hd.1 = k <;> simp [dictGet, h3, ih]

theorem statsSumTotal_dictSet_incr (k : String) (v : QStats)
    (l : List (String × QStats))
    (h : v.total = ((dictGet k l).getD ⟨0, 0⟩).total + 1) :
    statsSumTotal (dictSet k v l) = statsSumTotal l + 1 := by
  induction l with
  | nil => simp [dictGet, dictSet, statsSumTotal] at h ⊢; omega
  | cons hd tl ih =>
    by_cases h2 : hd.1 = k
    · simp [dictGet, dictSet, h2, statsSumTotal] at h ⊢; omega
    · simp [dictGet, dictSet, h2, statsSumTotal] at h ih ⊢
      omega

theorem statsSumCorrect_dictSet_incr (k : String) (v : QStats) (inc : Nat)
    (l : List (String × QStats))
    (h : v.correct = ((dictGet k l).getD ⟨0, 0⟩).correct + inc) :
    statsSumCorrect (dictSet k v l) = statsSumCorrect l + inc := by
  induction l with
  | nil => simp [dictGet, dictSet, statsSumCorrect] at h ⊢; omega
  | cons hd tl ih =>
    by_cases h2 : hd.1 = k
    · simp [dictGet, dictSet, h2, statsSumCorrect] at h ⊢; omega
    · simp [dictGet, dictSet, h2, statsSumCorrect] at h ih ⊢
      omega

/-! ## Claim C2 -/

/-- C2 counterexample: the composite-key function is not injective in the
difficulty component as claimed — the difficulty `Some "None"` and the
difficulty `None` are distinct inputs differing only in the difficulty
component, yet they produce the identical key string, because the code's
truthiness test sends both to the literal `"None"` segment. -/
theorem C2_key_counterexample :
    createQuestionKey "M" (some "None") "T" "Q" = createQuestionKey "M" none "T" "Q" ∧
    (some "None" : Option String) ≠ none := by
  decide

/-- C2 amended: the composite-key function is pure, and differing any
single component changes the key, except that the difficulty values
`None`, `""` and the literal string `"None"` all encode to the same
`"None"` key segment — difficulty changes alter the key exactly when the
encoded difficulty segments differ; in particular a difficulty of `None`
versus a difficulty string that is neither empty nor the literal `"None"`
always changes the key. -/
theorem C2_key_pure_and_injective :
    (∀ (m : String) (d : Option String) (t q : String),
      createQuestionKey m d t q = createQuestionKey m d t q) ∧
    (∀ (m1 m2 : String) (d : Option String) (t q : String), m1 ≠ m2 →
      createQuestionKey m1 d t q ≠ createQuestionKey m2 d t q) ∧
    (∀ (m : String) (d1 d2 : Option String) (t q : String),
      difficultySeg d1 ≠ difficultySeg d2 →
      createQuestionKey m d1 t q ≠ createQuestionKey m d2 t q) ∧
    (∀ (m x t q : String), x ≠ "" → x ≠ "None" →
      createQuestionKey m (some x) t q ≠ createQuestionKey m none t q) ∧
    (∀ (m : String) (d : Option String) (t1 t2 q : String), t1 ≠ t2 →
      createQuestionKey m d t1 q ≠ createQuestionKey m d t2 q) ∧
    (∀ (m : String) (d : Option String) (t q1 q2 : String), q1 ≠ q2 →
      createQuestionKey m d t q1 ≠ createQuestionKey m d t q2) := by
  have hm : ∀ (m1 m2 : String) (d : Option String) (t q : String), m1 ≠ m2 →
      createQuestionKey m1 d t q ≠ createQuestionKey m2 d t q := by
    intro m1 m2 d t q hne heq
    have h := congrArg String.data heq
    rw [createQuestionKey_data, createQuestionKey_data] at h
    exact hne (String.ext (List.append_cancel_right h))
  have hdseg : ∀ (m : String) (d1 d2 : Option String) (t q : String),
      difficultySeg d1 ≠ difficultySeg d2 →
      createQuestionKey m d1 t q ≠ createQuestionKey m d2 t q := by
    intro m d1 d2 t q hne heq
    have h := congrArg String.data heq
    rw [createQuestionKey_data, createQuestionKey_data] at h
    have h1 := List.append_cancel_left h
    injection h1 with _ h2
    exact hne (String.ext (List.append_cancel_right h2))
  have ht : ∀ (m : String) (d : Option String) (t1 t2 q : String), t1 ≠ t2 →
      createQuestionKey m d t1 q ≠ createQuestionKey m d t2 q := by
    intro m d t1 t2 q hne heq
    have h := congrArg String.data heq
    rw [createQuestionKey_data, createQuestionKey_data] at h
    have h1 := List.append_cancel_left h
    injection h1 with _ h2
    have h3 := List.append_cancel_left h2
    injection h3 with _ h4
    exact hne (String.ext (List.append_cancel_right h4))
  have hq : ∀ (m : String) (d : Option String) (t q1 q2 : String), q1 ≠ q2 →
      createQuestionKey m d t q1 ≠ createQuestionKey m d t q2 := by
    intro m d t q1 q2 hne heq
    have h := congrArg String.data heq
    rw [createQuestionKey_data, createQuestionKey_data] at h
    have h1 := List.append_cancel_left h
    injection h1 with _ h2
    have h3 := List.append_cancel_left h2
    injection h3 with _ h4
    have h5 := List.append_cancel_left h4
    injection h5 with _ h6
    exact hne (String.ext h6)
  refine ⟨fun _ _ _ _ => rfl, hm, hdseg, ?_, ht, hq⟩
  intro m x t q hx hxN
  apply hdseg
  simp [difficultySeg, hx, hxN]

/-- C2 witness: concrete single-component changes that alter the key,
obtained by instantiating the amended injectivity theorem. -/
theorem C2_key_injective_witness :
    createQuestionKey "A" none "T" "Q" ≠ createQuestionKey "B" none "T" "Q" ∧
    createQuestionKey "M" (some "Beginner") "T" "Q" ≠
      createQuestionKey "M" (some "Advanced") "T" "Q" ∧
    createQuestionKey "M" (some "Beginner") "T" "Q" ≠
      createQuestionKey "M" none "T" "Q" ∧
    createQuestionKey "M" none "T1" "Q" ≠ createQuestionKey "M" none "T2" "Q" ∧
    createQuestionKey "M" none "T" "Q1" ≠ createQuestionKey "M" none "T" "Q2" :=
  ⟨C2_key_pure_and_injective.2.1 "A" "B" none "T" "Q" (by decide),
   C2_key_pure_and_injective.2.2.1 "M" (some "Beginner") (some "Advanced") "T" "Q"
     (by decide),
   C2_key_pure_and_injective.2.2.2.1 "M" "Beginner" "T" "Q" (by decide) (by decide),
   C2_key_pure_and_injective.2.2.2.2.1 "M" none "T1" "T2" "Q" (by decide),
   C2_key_pure_and_injective.2.2.2.2.2 "M" none "T" "Q1" "Q2" (by decide)⟩

/-! ## Claim C3 -/

/-- Every single progress-store call preserves the equality of the
stored global totals with the sums over the per-key records. -/
theorem totals_applyOp (s : Store) (o : Op)
    (h1 : s.totalAttempts = statsSumTotal s.attempts)
    (h2 : s.correctAttempts = statsSumCorrect s.attempts) :
    (applyOp s o).totalAttempts = statsSumTotal (applyOp s o).attempts ∧
    (applyOp s o).correctAttempts = statsSumCorrect (applyOp s o).attempts := by
  cases o with
  | record m d t q c =>
    by_cases hg : m = "" ∨ t = "" ∨ q = ""
    · simpa [applyOp, recordAttempt, hg] using ⟨h1, h2⟩
    · have ht := statsSumTotal_dictSet_incr (createQuestionKey m d t q)
        ⟨((dictGet (createQuestionKey m d t q) s.attempts).getD ⟨0, 0⟩).total + 1,
         ((dictGet (createQuestionKey m d t q) s.attempts).getD ⟨0, 0⟩).correct +
           (if c then 1 else 0)⟩
        s.attempts rfl
      have hc := statsSumCorrect_dictSet_incr (createQuestionKey m d t q)
        ⟨((dictGet (createQuestionKey m d t q) s.attempts).getD ⟨0, 0⟩).total + 1,
         ((dictGet (createQuestionKey m d t q) s.attempts).getD ⟨0, 0⟩).correct +
           (if c then 1 else 0)⟩
        (if c then 1 else 0) s.attempts rfl
      constructor
      · simp [applyOp, recordAttempt, hg, ht, h1]
      · simp [applyOp, recordAttempt, hg, hc, h2]
  | markCompleted m d t q =>
    by_cases hg : m = "" ∨ t = "" ∨ q = "" <;>
      simpa [applyOp, markQuestionCompleted, hg] using ⟨h1, h2⟩
  | markHint m d t q =>
    by_cases hg : m = "" ∨ t = "" ∨ q = "" <;>
      simpa [applyOp, markHintUsed, hg] using ⟨h1, h2⟩
  | reset =>
    simp [applyOp, resetOp, emptyStore, statsSumTotal, statsSumCorrect]

/-- C3 confirmed: starting from the empty store, after any sequence of
`record_attempt`, `mark_question_completed`, `mark_hint_used` and
`reset` calls, the global totals reported by `get_overall_stats` equal
the sums of the per-key `total` and `correct` fields over all recorded
attempt records; since the sequence is arbitrary, the invariant holds
after every operation. -/
theorem C3_totals_invariant (ops : List Op) :
    (getOverallStats (runOps ops)).totalAttempts = statsSumTotal (runOps ops).attempts ∧
    (getOverallStats (runOps ops)).correctAttempts = statsSumCorrect (runOps ops).attempts := by
  have main : ∀ (l : List Op) (s : Store),
      s.totalAttempts = statsSumTotal s.attempts →
      s.correctAttempts = statsSumCorrect s.attempts →
      (l.foldl applyOp s).totalAttempts = statsSumTotal (l.foldl applyOp s).attempts ∧
      (l.foldl applyOp s).correctAttempts = statsSumCorrect (l.foldl applyOp s).attempts := by
    intro l
    induction l with
    | nil => intro s h1 h2; exact ⟨h1, h2⟩
    | cons o rest ih =>
      intro s h1 h2
      have h := totals_applyOp s o h1 h2
      exact ih (applyOp s o) h.1 h.2
  have h := main ops emptyStore (by simp [emptyStore, statsSumTotal])
    (by simp [emptyStore, statsSumCorrect])
  simpa [getOverallStats, runOps] using h

/-! ## Claim C1 -/

/-- The rollup fold over the attempts list equals the accumulator plus
the sums over the sub-list of entries passing the test. -/
theorem foldl_rollup_eq_filter (p : String × QStats → Bool)
    (l : List (String × QStats)) (a b : Nat) :
    l.foldl (fun acc kv => if p kv then (acc.1 + kv.2.total, acc.2 + kv.2.correct) else acc)
        (a, b) =
      (a + statsSumTotal (l.filter p), b + statsSumCorrect (l.filter p)) := by
  induction l generalizing a b with
  | nil => simp [statsSumTotal, statsSumCorrect]
  | cons hd tl ih =>
    by_cases hp : p hd
    · rw [List.foldl_cons]
      simp only [hp, if_true]
      rw [ih]
      simp [List.filter_cons, hp, statsSumTotal, statsSumCorrect, Prod.ext_iff]
      constructor <;> omega
    · rw [List.foldl_cons]
      simp only [hp, if_false]
      rw [ih]
      simp [List.filter_cons, hp]

/-- C1 counterexample: the topic rollup scans with the prefix
`"<module>/<difficulty>/<topicDir>"` *without* the trailing slash
(`[:-1]` drops it), so after recording one attempt under `Topic10`, the
rollup for `Topic1` reports 1 attempt even though no recorded key starts
with `"M/D/Topic1/"`. -/
theorem C1_rollup_counterexample :
    (getTopicStats "M" (some "D") "Topic1"
      (recordAttempt "M" (some "D") "Topic10" "q.txt" true emptyStore).2).totalAttempts = 1 ∧
    (recordAttempt "M" (some "D") "Topic10" "q.txt" true emptyStore).2.attempts.filter
      (fun kv => "M/D/Topic1/".data.isPrefixOf kv.1.data) = [] := by
  decide

/-- C1 amended: for every store (hence for any finite sequence of
`record_attempt` calls), `get_topic_stats` returns `total_attempts` and
`correct_attempts` equal to the sums of the per-key stats over exactly
those recorded keys that start with
`"<module>/<difficulty-or-None>/<topicDir>"` — the composite key of the
empty question with its trailing slash dropped — so keys of a topic
directory whose name extends the given one (`Topic10` for `Topic1`) are
also included. -/
theorem C1_rollup_amended (module : String) (difficulty : Option String)
    (topic : String) (s : Store) :
    (getTopicStats module difficulty topic s).totalAttempts =
      statsSumTotal (s.attempts.filter
        (fun kv =>
          ((createQuestionKey module difficulty topic "").data.dropLast).isPrefixOf
            kv.1.data)) ∧
    (getTopicStats module difficulty topic s).correctAttempts =
      statsSumCorrect (s.attempts.filter
        (fun kv =>
          ((createQuestionKey module difficulty topic "").data.dropLast).isPrefixOf
            kv.1.data)) := by
  have h := foldl_rollup_eq_filter
    (fun kv =>
      ((createQuestionKey module difficulty topic "").data.dropLast).isPrefixOf kv.1.data)
    s.attempts 0 0
  unfold getTopicStats
  dsimp only
  rw [h]
  constructor <;> simp

/-! ## Claim C4 -/

/-- Recording an attempt preserves "every completed key has at least one
correct attempt": completion flags are untouched and per-key `correct`
fields never decrease. -/
theorem completedCorrect_record (s : Store) (m : String) (d : Option String)
    (t q : String) (c : Bool)
    (h : ∀ k, (dictGet k s.completed).getD false = true →
      1 ≤ ((dictGet k s.attempts).getD ⟨0, 0⟩).correct) :
    ∀ k, (dictGet k (recordAttempt m d t q c s).2.completed).getD false = true →
      1 ≤ ((dictGet k (recordAttempt m d t q c s).2.attempts).getD ⟨0, 0⟩).correct := by
  intro k hk
  by_cases hg : m = "" ∨ t = "" ∨ q = ""
  · simp only [recordAttempt, hg, if_true] at hk ⊢
    exact h k hk
  · simp only [recordAttempt, hg, if_false] at hk ⊢
    by_cases hkey : k = createQuestionKey m d t q
    · subst hkey
      rw [dictGet_dictSet_self]
      have := h _ hk
      simp only [Option.getD_some]
      omega
    · rw [dictGet_dictSet_ne _ _ _ _ (fun he => hkey he.symm)]
      exact h k hk

/-- Every application-level call preserves "every completed key has at
least one correct attempt": completion is only set by the
`check_answer` flow, immediately after recording a correct attempt at
the very same key. -/
theorem completedCorrect_applyAppOp (s : Store) (o : AppOp)
    (h : ∀ k, (dictGet k s.completed).getD false = true →
      1 ≤ ((dictGet k s.attempts).getD ⟨0, 0⟩).correct) :
    ∀ k, (dictGet k (applyAppOp s o).completed).getD false = true →
      1 ≤ ((dictGet k (applyAppOp s o).attempts).getD ⟨0, 0⟩).correct := by
  cases o with
  | record m d t q c => exact completedCorrect_record s m d t q c h
  | submit m d t q c =>
    have h1 := completedCorrect_record s m d t q c h
    intro k hk
    by_cases hc : c
    · subst hc
      by_cases hg : m = "" ∨ t = "" ∨ q = ""
      · simp only [applyAppOp, checkAnswerProgress, markQuestionCompleted, hg,
          if_true] at hk ⊢
        exact h1 k hk
      · simp only [applyAppOp, checkAnswerProgress, markQuestionCompleted, hg,
          if_false, if_true] at hk ⊢
        by_cases hkey : k = createQuestionKey m d t q
        · subst hkey
          simp only [recordAttempt, hg, if_false]
          rw [dictGet_dictSet_self]
          simp
        · rw [dictGet_dictSet_ne _ _ _ _ (fun he => hkey he.symm)] at hk
          exact h1 k hk
    · simp only [applyAppOp, checkAnswerProgress] at hk ⊢
      rw [if_neg hc] at hk ⊢
      exact h1 k hk
  | markHint m d t q =>
    intro k hk
    by_cases hg : m = "" ∨ t = "" ∨ q = "" <;>
      · simp only [applyAppOp, markHintUsed, hg, if_true, if_false] at hk ⊢
        exact h k hk
  | reset =>
    intro k hk
    simp [applyAppOp, resetOp, emptyStore, dictGet] at hk

/-- C4 counterexample: the claim quantifies over arbitrary sequences of
the four progress-store operations, but a bare
`mark_question_completed` call on a fresh store marks the key completed
while its per-key stats record zero correct attempts — the
`ProgressManager` itself never enforces the implication. -/
theorem C4_completed_counterexample :
    isQuestionCompleted "M" none "T" "Q"
      (runOps [Op.markCompleted "M" none "T" "Q"]) = true ∧
    (getQuestionStats "M" none "T" "Q"
      (runOps [Op.markCompleted "M" none "T" "Q"])).correct = 0 := by
  decide

/-- C4 amended: in every state reachable from the empty store by
application-level operations — where completion is only ever set inside
the `check_answer` flow, which marks a question completed immediately
after recording a correct attempt at the same key (plus arbitrary
`record_attempt`, `mark_hint_used` and `reset` calls) — every key
reported completed has at least one recorded correct attempt. -/
theorem C4_completed_implies_correct (ops : List AppOp) (module : String)
    (difficulty : Option String) (topic question : String)
    (hc : isQuestionCompleted module difficulty topic question (runAppOps ops) = true) :
    1 ≤ (getQuestionStats module difficulty topic question (runAppOps ops)).correct := by
  have invRun : ∀ (l : List AppOp) (s : Store),
      (∀ k, (dictGet k s.completed).getD false = true →
        1 ≤ ((dictGet k s.attempts).getD ⟨0, 0⟩).correct) →
      ∀ k, (dictGet k (l.foldl applyAppOp s).completed).getD false = true →
        1 ≤ ((dictGet k (l.foldl applyAppOp s).attempts).getD ⟨0, 0⟩).correct := by
    intro l
    induction l with
    | nil => intro s hs; exact hs
    | cons o rest ih => intro s hs; exact ih (applyAppOp s o) (completedCorrect_applyAppOp s o hs)
  have inv := invRun ops emptyStore (by intro k hk; simp [emptyStore, dictGet] at hk)
  by_cases hg : module = "" ∨ topic = "" ∨ question = ""
  · simp [isQuestionCompleted, hg] at hc
  · simp only [isQuestionCompleted, hg, if_false] at hc
    have hinv := inv (createQuestionKey module difficulty topic question)
      (by simpa [runAppOps] using hc)
    simp only [getQuestionStats, runAppOps] at hinv ⊢
    cases hdg : dictGet (createQuestionKey module difficulty topic question)
        (ops.foldl applyAppOp emptyStore).attempts with
    | none => rw [hdg] at hinv; simp at hinv
    | some st => rw [hdg] at hinv; simpa using hinv

/-- C4 witness: one submitted correct answer through the `check_answer`
flow marks the question completed and leaves one recorded correct
attempt. -/
theorem C4_completed_implies_correct_witness :
    1 ≤ (getQuestionStats "M" none "T" "Q"
      (runAppOps [AppOp.submit "M" none "T" "Q" true])).correct :=
  C4_completed_implies_correct [AppOp.submit "M" none "T" "Q" true]
    "M" none "T" "Q" (by decide)

/-! ## Claim C5 -/

theorem mem_insertTopic (a x : String × String) (l : List (String × String)) :
    x ∈ insertTopic a l ↔ x = a ∨ x ∈ l := by
  induction l with
  | nil => simp [insertTopic]
  | cons b tl ih =>
    by_cases h : topicSortKey b.1 < topicSortKey a.1
    · simp only [insertTopic, h, if_true, List.mem_cons, ih]
      tauto
    · simp only [insertTopic, h, if_false, List.mem_cons]

theorem pairwise_insertTopic (a : String × String) (l : List (String × String))
    (h : List.Pairwise (fun x y => topicSortKey x.1 ≤ topicSortKey y.1) l) :
    List.Pairwise (fun x y => topicSortKey x.1 ≤ topicSortKey y.1) (insertTopic a l) := by
  induction l with
  | nil => simp [insertTopic]
  | cons b tl ih =>
    rw [List.pairwise_cons] at h
    by_cases hlt : topicSortKey b.1 < topicSortKey a.1
    · simp only [insertTopic, hlt, if_true]
      rw [List.pairwise_cons]
      refine ⟨?_, ih h.2⟩
      intro x hx
      rcases (mem_insertTopic a x tl).1 hx with rfl | hx2
      · exact Nat.le_of_lt hlt
      · exact h.1 x hx2
    · simp only [insertTopic, hlt, if_false]
      rw [List.pairwise_cons]
      refine ⟨?_, List.pairwise_cons.2 h⟩
      intro x hx
      rcases List.mem_cons.1 hx with rfl | hx2
      · exact Nat.le_of_not_lt hlt
      · exact Nat.le_trans (Nat.le_of_not_lt hlt) (h.1 x hx2)

theorem insertTopic_perm (a : String × String) (l : List (String × String)) :
    (insertTopic a l).Perm (a :: l) := by
  induction l with
  | nil => simp [insertTopic]
  | cons b tl ih =>
    by_cases hlt : topicSortKey b.1 < topicSortKey a.1
    · simp only [insertTopic, hlt, if_true]
      exact (ih.cons b).trans (List.Perm.swap a b tl)
    · simp only [insertTopic, hlt, if_false]
      exact List.Perm.refl _

theorem pairwise_sortTopics (l : List (String × String)) :
    List.Pairwise (fun x y => topicSortKey x.1 ≤ topicSortKey y.1) (sortTopics l) := by
  induction l with
  | nil => simp [sortTopics]
  | cons a tl ih => exact pairwise_insertTopic a (sortTopics tl) ih

theorem sortTopics_perm (l : List (String × String)) : (sortTopics l).Perm l := by
  induction l with
  | nil => simp [sortTopics]
  | cons a tl ih => exact (insertTopic_perm a (sortTopics tl)).trans (ih.cons a)

/-- C5 counterexample: unparsable topic names are not sorted after *all*
parsable ones — the pattern-miss key is the fixed number 999, so the
parsable name `Topic1000` (key 1000) sorts *after* the unparsable
`TopicX` (key 999), contradicting the claim's "every name whose suffix
does not parse sorted after all names whose suffix does parse". -/
theorem C5_topic_order_counterexample :
    topicSortKey "TopicX" = 999 ∧ topicSortKey "Topic1000" = 1000 ∧
    sortTopics [("Topic1000", "Topic1000"), ("TopicX", "TopicX")] =
      [("TopicX", "TopicX"), ("Topic1000", "Topic1000")] := by
  decide

/-- C5 amended: `get_topics` returns the topic entries sorted
(stably) in ascending order of the key `Topic\s*(\d+)`-parsed numeric
suffix, with every unparsable name assigned the fixed key 999 — hence
unparsable names sort after all names with suffix below 999 but tie with
suffix 999 and precede larger suffixes; the output is always a
permutation of the input in nondecreasing key order, and on the claim's
instance `Topic2, Topic10, Topic1, TopicX` the order is
`Topic1, Topic2, Topic10, TopicX`. -/
theorem C5_topic_order_amended :
    (∀ l : List (String × String),
      List.Pairwise (fun x y => topicSortKey x.1 ≤ topicSortKey y.1) (sortTopics l)) ∧
    (∀ l : List (String × String), (sortTopics l).Perm l) ∧
    sortTopics [("Topic2", "Topic2"), ("Topic10", "Topic10"), ("Topic1", "Topic1"),
        ("TopicX", "TopicX")] =
      [("Topic1", "Topic1"), ("Topic2", "Topic2"), ("Topic10", "Topic10"),
        ("TopicX", "TopicX")] :=
  ⟨pairwise_sortTopics, sortTopics_perm, by decide⟩

/-! ## Claim C6 -/

/-- C6 confirmed: a submission is judged correct exactly when the
lowercased, whitespace-trimmed user answer equals one of the
alternatives obtained by splitting the canonical answer on the bar
separator and lowercasing and trimming each; on the stored answer
`cat|dog` the submissions `Cat`, ` dog ` and `DOG` are accepted and
`catdog` is rejected. -/
theorem C6_answer_matching :
    (∀ correctAnswer userAnswer : String,
      checkAnswerCorrect correctAnswer userAnswer = true ↔
        ∃ opt ∈ pySplit correctAnswer '|',
          pyStrip (pyLower userAnswer) = pyStrip (pyLower opt)) ∧
    checkAnswerCorrect "cat|dog" "Cat" = true ∧
    checkAnswerCorrect "cat|dog" " dog " = true ∧
    checkAnswerCorrect "cat|dog" "DOG" = true ∧
    checkAnswerCorrect "cat|dog" "catdog" = false := by
  refine ⟨?_, by decide, by decide, by decide, by decide⟩
  intro ca ua
  simp only [checkAnswerCorrect, answerOptions, List.contains_iff_exists_mem_beq,
    List.mem_map, beq_iff_eq]
  constructor
  · rintro ⟨a, ⟨opt, hopt, rfl⟩, heq⟩
    exact ⟨opt, hopt, heq⟩
  · rintro ⟨opt, hopt, heq⟩
    exact ⟨pyStrip (pyLower opt), ⟨opt, hopt, rfl⟩, heq⟩

/-! ## Claim C7 -/

theorem findCharIdx_eq_none (c : Char) (l : List Char) (h : c ∉ l) :
    findCharIdx c l = none := by
  induction l with
  | nil => rfl
  | cons x rest ih =>
    simp only [List.mem_cons, not_or] at h
    have hx : ¬ (x = c) := fun he => h.1 he.symm
    simp [findCharIdx, hx, ih h.2]

/-- A text that does not contain the opening delimiter yields an empty
extraction. -/
theorem extractContent_empty_of_not_mem (text : String) (startChar endChar : Char)
    (h : startChar ∉ text.data) :
    extractContent text startChar endChar = "" := by
  by_cases ht : text = ""
  · simp [extractContent, ht]
  · simp [extractContent, ht, findCharIdx_eq_none startChar text.data h]

/-- C7 counterexample: on content with no delimiters the code returns
the *raw* content for both outputs, not the trimmed content the claim
states — on `" hello "` both outputs keep the surrounding spaces while
the claim predicts the stripped `"hello"`. -/
theorem C7_parse_counterexample :
    loadQuestionContentPure " hello " = (" hello ", " hello ") ∧
    pyStrip " hello " = "hello" ∧ (" hello " : String) ≠ "hello" := by
  decide

/-- C7 amended: if both delimited regions extract to nonempty (trimmed)
strings, the outputs are the description joined to the literal question
by a blank line, and the literal question; if the content contains
neither an opening bracket nor an opening brace, both outputs equal the
raw (untrimmed) content; the claim's example parses as stated. -/
theorem C7_parse_amended :
    (∀ content : String,
      extractContent content '[' ']' ≠ "" →
      extractContent content '\x7b' '\x7d' ≠ "" →
      loadQuestionContentPure content =
        (extractContent content '[' ']' ++ "\n\n" ++
            extractContent content '\x7b' '\x7d',
          extractContent content '\x7b' '\x7d')) ∧
    (∀ content : String, '[' ∉ content.data → '\x7b' ∉ content.data →
      loadQuestionContentPure content = (content, content)) ∧
    loadQuestionContentPure "[Scenario here]\x7bWhat is 2+2?\x7d" =
      ("Scenario here\n\nWhat is 2+2?", "What is 2+2?") := by
  refine ⟨?_, ?_, by decide⟩
  · intro content h1 h2
    simp only [loadQuestionContentPure]
    rw [if_neg (fun hcon => h1 hcon.1), if_pos h1, if_pos h2]
  · intro content h1 h2
    have e1 := extractContent_empty_of_not_mem content '[' ']' h1
    have e2 := extractContent_empty_of_not_mem content '\x7b' '\x7d' h2
    simp [loadQuestionContentPure, e1, e2]

/-- C7 witness: the amended theorem instantiated at a two-region content
and at a delimiter-free content. -/
theorem C7_parse_amended_witness :
    loadQuestionContentPure "[A]\x7bB\x7d" =
      (extractContent "[A]\x7bB\x7d" '[' ']' ++ "\n\n" ++
          extractContent "[A]\x7bB\x7d" '\x7b' '\x7d',
        extractContent "[A]\x7bB\x7d" '\x7b' '\x7d') ∧
    loadQuestionContentPure "plain" = ("plain", "plain") :=
  ⟨C7_parse_amended.1 "[A]\x7bB\x7d" (by decide) (by decide),
   C7_parse_amended.2.1 "plain" (by decide) (by decide)⟩

/-! ## Claim C8 -/

/-- The first piece of a split is the run of characters before the first
separator. -/
theorem pySplitChar_head (sep : Char) (l : List Char) :
    ∃ t, pySplitChar sep l = (l.takeWhile (fun c => ¬ (c = sep))) :: t := by
  induction l with
  | nil => exact ⟨[], rfl⟩
  | cons c rest ih =>
    by_cases h : c = sep
    · subst h
      exact ⟨pySplitChar c rest, by simp [pySplitChar, List.takeWhile_cons]⟩
    · obtain ⟨t, ht⟩ := ih
      exact ⟨t, by simp [pySplitChar, h, ht, List.takeWhile_cons]⟩

/-- C8 counterexample: `replace("PS_", "")` removes *every* occurrence
of `PS_`, not only a leading one — for the filename `APS_B.txt` the code
strips the interior `PS_`, leaving `AB.txt` with no underscore, so the
identifier is the first character `A`, while the claim's leading-only
stripping leaves `APS_B.txt` and predicts the token `APS`. -/
theorem C8_identifier_counterexample :
    questionIdentifier "APS_B.txt" = some "A" ∧
    claimIdentifierSpec "APS_B.txt" = some "APS" := by
  decide

/-- C8 amended: for every question filename, the identifier used by
answer and hint resolution is the token before the first underscore of
the filename after removing every occurrence of `PS_` (left to right,
not only a leading one), or the first character of the stripped name if
it contains no underscore; it is undefined (an `IndexError` in the
source) exactly when the stripped name is empty. -/
theorem C8_identifier_amended (questionFile : String) :
    questionIdentifier questionFile = amendedIdentifierSpec questionFile := by
  simp only [questionIdentifier, amendedIdentifierSpec]
  by_cases h : (stripPS questionFile.data).contains '_'
  · simp only [h, if_true]
    obtain ⟨t, ht⟩ := pySplitChar_head '_' (stripPS questionFile.data)
    rw [ht]
    rfl
  · rw [if_neg h, if_neg h]

/-! ## Claim C9 -/

/-- C9 confirmed: `reset` always succeeds and replaces both stores with
empty structures, so afterwards — whatever the prior state — every key
reads as not completed and no hint used, every per-question stat is
zero, and the overall total attempt count is zero. -/
theorem C9_reset_total (s : Store) (module : String) (difficulty : Option String)
    (topic question : String) :
    (resetOp s).1 = true ∧
    isQuestionCompleted module difficulty topic question (resetOp s).2 = false ∧
    isHintUsed module difficulty topic question (resetOp s).2 = false ∧
    (getQuestionStats module difficulty topic question (resetOp s).2).total = 0 ∧
    (getQuestionStats module difficulty topic question (resetOp s).2).correct = 0 ∧
    (getOverallStats (resetOp s).2).totalAttempts = 0 := by
  refine ⟨rfl, ?_, ?_, ?_, ?_, rfl⟩ <;>
    simp [resetOp, emptyStore, isQuestionCompleted, isHintUsed, getQuestionStats,
      dictGet, ite_self]

/-! ## Claim C10 -/

/-- C10 confirmed: when the module, topic or question parameter is empty
(Python-falsy), `record_attempt`, `mark_question_completed` and
`mark_hint_used` all return `False` and leave the whole in-memory state
unchanged, so no subsequent query can observe the invalid call. -/
theorem C10_invalid_params (module : String) (difficulty : Option String)
    (topic question : String) (isCorrect : Bool) (s : Store)
    (h : module = "" ∨ topic = "" ∨ question = "") :
    recordAttempt module difficulty topic question isCorrect s = (false, s) ∧
    markQuestionCompleted module difficulty topic question s = (false, s) ∧
    markHintUsed module difficulty topic question s = (false, s) := by
  refine ⟨?_, ?_, ?_⟩ <;>
    simp [recordAttempt, markQuestionCompleted, markHintUsed, h]

/-- C10 witness: the three operations rejecting an empty module name on
the empty store. -/
theorem C10_invalid_params_witness :
    recordAttempt "" (some "Beginner") "Topic1" "q.txt" true emptyStore =
      (false, emptyStore) ∧
    markQuestionCompleted "" (some "Beginner") "Topic1" "q.txt" emptyStore =
      (false, emptyStore) ∧
    markHintUsed "" (some "Beginner") "Topic1" "q.txt" emptyStore =
      (false, emptyStore) :=
  C10_invalid_params "" (some "Beginner") "Topic1" "q.txt" true emptyStore (Or.inl rfl)

end ICTF
